import Mathlib

/-!
Verification of the JSON/YAML/XML converter in `src/program.py`.

The development shallow-embeds the conversion core of the program:

* `Element` models an `xml.etree.ElementTree` element as used by the program:
  a tag, ordered attributes, ordered child elements and the optional text
  before the first child (the program never reads `.tail`, and the spec's
  Element likewise has a single optional text slot).
* `PyValue` models the dynamic Python values flowing through the converter:
  the six generic data variants (`None`, `bool`, `int`, `str`, `list`,
  `dict` with string keys in insertion order), plus an `ElementTree` element
  (`xmlElement`) and a catch-all `foreignObj` for any other Python object
  (for example the `datetime.date` values `yaml.safe_load` can produce),
  which the JSON encoder rejects.  Python `float` values and non-string
  dict keys are outside the model.
* `convert_xml_to_dict`, `convert_dict_to_xml_element`, `write_data_to_xml`,
  `write_data_to_json` and `converter_xml_input` are translated from the
  functions of the same names in `src/program.py` (the last models the XML
  input branch shared by `ConverterWorker.run` and `__main__`).
-/

/-- Models an `xml.etree.ElementTree.Element`: tag name, attributes in
document order, child elements in document order, and the optional text
before the first child (`element.text`). -/
structure Element where
  tag : String
  attrib : List (String × String)
  children : List Element
  text : Option String

/-- Models the dynamic Python values handled by the converter.  String keys
only for `dict` (the program's own XML decoder and JSON input produce only
string keys); `float` is not modelled.  `xmlElement` is an
`ElementTree.Element` object; `foreignObj` stands for any other Python
object (such as a `datetime.date` produced by `yaml.safe_load`), which is
not JSON-serializable. -/
inductive PyValue where
  | null
  | bool (b : Bool)
  | int (n : Int)
  | str (s : String)
  | list (items : List PyValue)
  | dict (entries : List (String × PyValue))
  | xmlElement (e : Element)
  | foreignObj

/-- Association-list lookup, modelling a Python `dict` read
(`result[child.tag]`, `child.tag in result`). -/
def lookupAssoc {α : Type} : List (String × α) → String → Option α
  | [], _ => none
  | (k, v) :: rest, key => if k = key then some v else lookupAssoc rest key

/-- Association-list write, modelling a Python `dict` assignment
(`result[key] = v`): an existing key keeps its position, a new key is
appended at the end, as in an insertion-ordered Python dict. -/
def updateAssoc {α : Type} : List (String × α) → String → α → List (String × α)
  | [], key, v => [(key, v)]
  | (k, w) :: rest, key, v =>
      if k = key then (key, v) :: rest else (k, w) :: updateAssoc rest key v

/-- Models the per-child merge of `convert_xml_to_dict`
(src/program.py lines 197-202): a fresh tag is inserted at the end, an
existing non-list entry is promoted to a two-element list, an existing
list entry gets the new value appended. -/
def addChild (acc : List (String × PyValue)) (tag : String) (cd : PyValue) :
    List (String × PyValue) :=
  match lookupAssoc acc tag with
  | none => acc ++ [(tag, cd)]
  | some (PyValue.list xs) => updateAssoc acc tag (PyValue.list (xs ++ [cd]))
  | some v => updateAssoc acc tag (PyValue.list [v, cd])

/-- Models `result.update(element.attrib)` (line 193): each attribute value
enters the accumulator as the plain string it is in Python. -/
def attribValues : List (String × String) → List (String × PyValue)
  | [] => []
  | (k, v) :: rest => (k, PyValue.str v) :: attribValues rest

/-- Whitespace as recognised by Python `str.strip()` with no argument,
restricted to the ASCII whitespace characters (Python additionally strips
some Unicode space characters, which no claim exercises). -/
def pyIsSpace (c : Char) : Bool :=
  c = ' ' || c = '\t' || c = '\n' || c = '\r' || c = '\x0b' || c = '\x0c'

/-- Models Python `s.strip()`: remove leading and trailing whitespace. -/
def pyStrip (s : String) : String :=
  String.mk (((s.data.dropWhile pyIsSpace).reverse.dropWhile pyIsSpace).reverse)

mutual
/-- Models `convert_xml_to_dict` (src/program.py lines 189-211): seed the
accumulator with the attributes, fold the children in with `addChild`,
then handle the trailing text (bare-string return when the accumulator and
the attributes are empty, otherwise a `#text` entry). -/
def convert_xml_to_dict : Element → PyValue
  | Element.mk _tg attrib children text =>
    let acc := convertChildren children (attribValues attrib)
    match text with
    | none => .dict acc
    | some t =>
        if pyStrip t = "" then .dict acc
        else if acc.isEmpty && attrib.isEmpty then .str (pyStrip t)
        else .dict (updateAssoc acc "#text" (.str (pyStrip t)))

/-- Models the `for child in element` loop of `convert_xml_to_dict`
(lines 195-202), carrying the accumulator dict. -/
def convertChildren : List Element → List (String × PyValue) → List (String × PyValue)
  | [], acc => acc
  | c :: rest, acc => convertChildren rest (addChild acc c.tag (convert_xml_to_dict c))
end

/-- Single-quoted Python string repr with the common backslash escapes.
Quote selection (Python prefers double quotes when the text contains a
single quote) and the escaping of non-printable characters are not
modelled; no claim depends on these strings. -/
def pyReprStr (s : String) : String :=
  "\x27" ++ String.join (s.data.map (fun c =>
    if c = '\\' then "\\\\"
    else if c = '\x27' then "\\\x27"
    else if c = '\n' then "\\n"
    else if c = '\r' then "\\r"
    else if c = '\t' then "\\t"
    else String.singleton c)) ++ "\x27"

mutual
/-- Models Python `repr` on converter values: `repr` and `str` agree on
everything except strings, which `repr` quotes.  `str()` of an
`ElementTree.Element` or of a foreign object is an address-dependent
Python repr, modelled as a fixed placeholder.  No claim depends on these
strings. -/
def pyRepr : PyValue → String
  | .null => "None"
  | .bool true => "True"
  | .bool false => "False"
  | .int n => toString n
  | .str s => pyReprStr s
  | .list items => "[" ++ pyReprItems items ++ "]"
  | .dict kvs => "\x7b" ++ pyReprEntries kvs ++ "\x7d"
  | .xmlElement _ => "<Element>"
  | .foreignObj => "<object>"

/-- Comma-separated reprs of the elements of a Python list. -/
def pyReprItems : List PyValue → String
  | [] => ""
  | [v] => pyRepr v
  | v :: rest => pyRepr v ++ ", " ++ pyReprItems rest

/-- Comma-separated `key: value` reprs of the entries of a Python dict. -/
def pyReprEntries : List (String × PyValue) → String
  | [] => ""
  | [(k, v)] => pyReprStr k ++ ": " ++ pyRepr v
  | (k, v) :: rest => pyReprStr k ++ ": " ++ pyRepr v ++ ", " ++ pyReprEntries rest
end

/-- Models Python `str(d)` as applied by `convert_dict_to_xml_element` to
leaf values: identity on strings, `repr` on everything else. -/
def pyStr (v : PyValue) : String :=
  match v with
  | .str s => s
  | _ => pyRepr v

/-- Models the item-tag computation of `convert_dict_to_xml_element`
(line 136): `tag[:-1] if tag.endswith('s') and len(tag) > 1 else "item"`.
`tag.data.getLast? = some 's'` models `tag.endswith('s')` and
`String.mk tag.data.dropLast` models the code-point slice `tag[:-1]`. -/
def itemTagOf (tag : String) : String :=
  if tag.data.getLast? = some 's' ∧ tag.length > 1 then String.mk tag.data.dropLast
  else "item"

mutual
/-- Models `convert_dict_to_xml_element` (src/program.py lines 124-151):
a dict becomes an element with one child per entry, a list becomes an
element with one child per item under the singularized item tag, and any
other value becomes a leaf whose text is `str(d)`. -/
def convert_dict_to_xml_element (tag : String) (d : PyValue) : Element :=
  match d with
  | .dict entries =>
      { tag := tag, attrib := [], children := encodeEntries entries, text := none }
  | .list items =>
      { tag := tag, attrib := [], children := encodeItems tag items, text := none }
  | _ => { tag := tag, attrib := [], children := [], text := some (pyStr d) }

/-- Models the `for key, val in d.items()` loop of the dict branch
(lines 127-133); the identical inner loop of the list branch
(lines 139-145) reuses it: a dict or list value recurses, any other value
becomes a leaf child with text `str(val)`. -/
def encodeEntries : List (String × PyValue) → List Element
  | [] => []
  | (key, val) :: rest =>
      (match val with
       | .dict _ => convert_dict_to_xml_element key val
       | .list _ => convert_dict_to_xml_element key val
       | _ => { tag := key, attrib := [], children := [], text := some (pyStr val) })
      :: encodeEntries rest

/-- Models the `for item in d` loop of the list branch (lines 135-148):
the item tag is recomputed from the enclosing tag on every iteration, a
dict item becomes a child element carrying its entries, any other item
becomes a leaf child with text `str(item)`. -/
def encodeItems (tag : String) : List PyValue → List Element
  | [] => []
  | item :: rest =>
      let item_tag := itemTagOf tag
      (match item with
       | .dict kvs =>
           { tag := item_tag, attrib := [], children := encodeEntries kvs, text := none }
       | _ => { tag := item_tag, attrib := [], children := [], text := some (pyStr item) })
      :: encodeItems tag rest
end

/-- Escapes `&`, `<` and `>` in XML character data, as `ET.tostring` does. -/
def xmlEscape (s : String) : String :=
  String.join (s.data.map (fun c =>
    if c = '&' then "&amp;"
    else if c = '<' then "&lt;"
    else if c = '>' then "&gt;"
    else String.singleton c))

/-- Two-space indentation prefix used by `toprettyxml(indent="  ")`. -/
def xmlIndent (lvl : Nat) : String := String.mk (List.replicate (2 * lvl) ' ')

/-- Renders the attributes inline on the opening tag. -/
def xmlAttrs : List (String × String) → String
  | [] => ""
  | (k, v) :: rest => " " ++ k ++ "=\"" ++ xmlEscape v ++ "\"" ++ xmlAttrs rest

mutual
/-- Models the serialization step of `write_data_to_xml` (lines 168-170):
`ET.tostring` followed by `minidom.parseString(...).toprettyxml(indent="  ")`,
one element per line with two-space indentation, for element trees without
mixed text/element content (a spec non-goal).  Its exact output is not
relied on by any claim; only the fact that it is computed fully in memory
before the output file is opened matters. -/
def xmlPrettyNode : Element → Nat → String
  | Element.mk tg attrib children text, lvl =>
    let openTag := xmlIndent lvl ++ "<" ++ tg ++ xmlAttrs attrib
    match children, text with
    | [], none => openTag ++ "/>\n"
    | [], some t =>
        if t = "" then openTag ++ "/>\n"
        else openTag ++ ">" ++ xmlEscape t ++ "</" ++ tg ++ ">\n"
    | cs, t =>
        openTag ++ ">\n"
          ++ (match t with
              | some s => if pyStrip s = "" then "" else xmlIndent (lvl + 1) ++ xmlEscape s ++ "\n"
              | none => "")
          ++ xmlPrettyChildren cs (lvl + 1)
          ++ xmlIndent lvl ++ "</" ++ tg ++ ">\n"

/-- Serializes a list of sibling elements at the given indentation level. -/
def xmlPrettyChildren : List Element → Nat → String
  | [], _ => ""
  | c :: rest, lvl => xmlPrettyNode c lvl ++ xmlPrettyChildren rest lvl
end

/-- Full document produced by `toprettyxml`: XML declaration plus the tree. -/
def xmlPretty (root : Element) : String :=
  "<?xml version=\"1.0\" ?>\n" ++ xmlPrettyNode root 0

/-- Models the root-building dispatch of `write_data_to_xml`
(lines 155-164): an `ET.Element` passes through unchanged, a dict is
encoded under the fixed root tag `root`, a list becomes a `root` element
with one encoded `item` child per list item.  Any other value (including
every scalar) leaves the local variable `root` unassigned, so line 168
raises `UnboundLocalError`, which the `except Exception` handler at
line 185 turns into a `False` return; this is modelled as `none`.  (The
`raise TypeError` at line 166 is unreachable: it sits in the `else` of an
`if/elif` that already covers dict and list.) -/
def write_data_to_xml_root : PyValue → Option Element
  | .xmlElement e => some e
  | .dict kvs => some (convert_dict_to_xml_element "root" (.dict kvs))
  | .list items =>
      some { tag := "root", attrib := [],
             children := items.map (fun item => convert_dict_to_xml_element "item" item),
             text := none }
  | _ => none

/-- Outcome of one writer call: whether the output file was opened (and
therefore truncated), the bytes written to it, and the boolean the Python
function returns.  The model assumes the output path itself is writable
(`IOError` branches are not modelled). -/
structure WriteOutcome where
  opened : Bool
  written : String
  success : Bool

/-- Characters allowed in XML 1.0 character data: tab, line feed, carriage
return, and code points from `0x20` up, excluding `0xFFFE`/`0xFFFF`
(surrogates cannot occur in a `Char`).  `ET.tostring` escapes only `&`,
`<`, `>` (plus `"`, tab, LF, CR in attribute values) and emits every other
character raw, so a text or attribute value containing any other control
character yields bytes that expat rejects when `minidom.parseString`
reparses them at line 169. -/
def validXmlChar (c : Char) : Bool :=
  c.toNat = 9 || c.toNat = 10 || c.toNat = 13 ||
  (32 ≤ c.toNat && c.toNat ≤ 0xD7FF) || (0xE000 ≤ c.toNat && c.toNat ≤ 0xFFFD) ||
  (0x10000 ≤ c.toNat && c.toNat ≤ 0x10FFFF)

/-- Start character of an XML name, per the XML 1.0 `NameStartChar`
production as enforced by expat.  The colon is excluded: the trees built
here never carry namespace declarations, and `minidom.parseString` parses
with namespace processing, under which a prefixed name without a matching
declaration is itself an `ExpatError`. -/
def nameStartChar (c : Char) : Bool :=
  (65 ≤ c.toNat && c.toNat ≤ 90) || c.toNat = 95 || (97 ≤ c.toNat && c.toNat ≤ 122) ||
  (0xC0 ≤ c.toNat && c.toNat ≤ 0xD6) || (0xD8 ≤ c.toNat && c.toNat ≤ 0xF6) ||
  (0xF8 ≤ c.toNat && c.toNat ≤ 0x2FF) || (0x370 ≤ c.toNat && c.toNat ≤ 0x37D) ||
  (0x37F ≤ c.toNat && c.toNat ≤ 0x1FFF) || (0x200C ≤ c.toNat && c.toNat ≤ 0x200D) ||
  (0x2070 ≤ c.toNat && c.toNat ≤ 0x218F) || (0x2C00 ≤ c.toNat && c.toNat ≤ 0x2FEF) ||
  (0x3001 ≤ c.toNat && c.toNat ≤ 0xD7FF) || (0xF900 ≤ c.toNat && c.toNat ≤ 0xFDCF) ||
  (0xFDF0 ≤ c.toNat && c.toNat ≤ 0xFFFD) || (0x10000 ≤ c.toNat && c.toNat ≤ 0xEFFFF)

/-- Non-initial character of an XML name, per the XML 1.0 `NameChar`
production. -/
def nameChar (c : Char) : Bool :=
  nameStartChar c || c = '-' || c = '.' || (48 ≤ c.toNat && c.toNat ≤ 57) ||
  c.toNat = 0xB7 || (0x300 ≤ c.toNat && c.toNat ≤ 0x36F) ||
  (0x203F ≤ c.toNat && c.toNat ≤ 0x2040)

/-- Valid XML tag or attribute name: non-empty, a name-start character
followed by name characters.  `ET.tostring` emits tag and attribute names
unescaped, so an invalid name (empty, a space, a leading digit, ...)
produces output expat rejects. -/
def validXmlName (s : String) : Bool :=
  match s.data with
  | [] => false
  | c :: rest => nameStartChar c && rest.all nameChar

/-- Pairwise-distinct attribute names (an `ET.Element` stores attributes
in a dict, so real elements always satisfy this; repeated names would be
ill-formed XML). -/
def distinctKeys : List (String × String) → Bool
  | [] => true
  | (k, _) :: rest => (rest.all fun kv => !(kv.1 == k)) && distinctKeys rest

mutual
/-- Serializability check for the reparse at lines 168-169: `ET.tostring`
always produces bytes, but `minidom.parseString` accepts them only when
every tag and attribute name is a valid XML name, attribute names are
distinct, and every text and attribute value consists of XML-valid
characters.  Trees with namespace declarations are outside the model (the
program never builds them, and a decoded input tree carrying them is a
documented non-goal of the spec). -/
def xmlWellFormed : Element → Bool
  | Element.mk tg attrib children text =>
    validXmlName tg &&
    attrib.all (fun kv => validXmlName kv.1 && kv.2.data.all validXmlChar) &&
    distinctKeys attrib &&
    (match text with
     | none => true
     | some t => t.data.all validXmlChar) &&
    xmlWellFormedChildren children

/-- Serializability of every element in a list of children. -/
def xmlWellFormedChildren : List Element → Bool
  | [] => true
  | c :: rest => xmlWellFormed c && xmlWellFormedChildren rest
end

/-- Models `write_data_to_xml` (lines 153-187): the document text is
produced fully in memory (lines 168-170) and only then is the output file
opened and written in one call (lines 172-173).  Both failure paths
happen before the file is opened, so nothing is opened or written: when
the root dispatch leaves `root` unassigned, line 168 raises
`UnboundLocalError`; when the built tree does not serialize to XML that
expat accepts (an invalid name or an XML-invalid character),
`minidom.parseString` raises `ExpatError` at line 169.  Either exception
is caught by the handlers at lines 176-187 and turned into a `False`
return. -/
def write_data_to_xml (data : PyValue) : WriteOutcome :=
  match write_data_to_xml_root data with
  | some root =>
      if xmlWellFormed root then
        { opened := true, written := xmlPretty root, success := true }
      else { opened := false, written := "", success := false }
  | none => { opened := false, written := "", success := false }

/-- Lowercase hexadecimal digit, as used by Python's `'\\u%04x'` escape. -/
def hexDigit (n : Nat) : Char :=
  if n < 10 then Char.ofNat (48 + n) else Char.ofNat (87 + n)

/-- Four lowercase hex digits of a code point below 0x10000. -/
def hex4 (n : Nat) : String :=
  String.mk [hexDigit (n / 4096 % 16), hexDigit (n / 256 % 16),
             hexDigit (n / 16 % 16), hexDigit (n % 16)]

/-- Models the per-character JSON string escaping of `json.dump` with
`ensure_ascii=False`: backslash, double quote and the C0 control
characters are escaped, everything else is emitted verbatim. -/
def jsonEscapeChar (c : Char) : String :=
  if c = '\\' then "\\\\"
  else if c = '"' then "\\\""
  else if c = '\x08' then "\\b"
  else if c = '\x0c' then "\\f"
  else if c = '\n' then "\\n"
  else if c = '\r' then "\\r"
  else if c = '\t' then "\\t"
  else if c.toNat < 32 then "\\u" ++ hex4 c.toNat
  else String.singleton c

/-- Quoted, escaped JSON string literal. -/
def jsonQuote (s : String) : String :=
  "\"" ++ String.join (s.data.map jsonEscapeChar) ++ "\""

/-- Newline plus the four-space-per-level indentation of
`json.dump(..., indent=4)`. -/
def jsonNl (lvl : Nat) : String := "\n" ++ String.mk (List.replicate (4 * lvl) ' ')

mutual
/-- Models the chunk stream of `json.dump(data, f, indent=4,
ensure_ascii=False)` (src/program.py line 111).  `json.dump` serializes
into the already-open file object chunk by chunk; the result pairs the
concatenation of the chunks written to the file with a success flag.  A
value that is not JSON-serializable (an `ElementTree.Element` or a foreign
object such as a `datetime.date`) raises `TypeError` at the point it is
reached, after every earlier chunk has already been handed to the file. -/
def jsonStream : PyValue → Nat → String × Bool
  | .null, _ => ("null", true)
  | .bool true, _ => ("true", true)
  | .bool false, _ => ("false", true)
  | .int n, _ => (toString n, true)
  | .str s, _ => (jsonQuote s, true)
  | .list [], _ => ("[]", true)
  | .list (x :: xs), lvl =>
      let r := jsonSeqItems (x :: xs) (lvl + 1) true
      if r.2 then ("[" ++ r.1 ++ jsonNl lvl ++ "]", true) else ("[" ++ r.1, false)
  | .dict [], _ => ("\x7b\x7d", true)
  | .dict (kv :: kvs), lvl =>
      let r := jsonDictItems (kv :: kvs) (lvl + 1) true
      if r.2 then ("\x7b" ++ r.1 ++ jsonNl lvl ++ "\x7d", true) else ("\x7b" ++ r.1, false)
  | .xmlElement _, _ => ("", false)
  | .foreignObj, _ => ("", false)

/-- Streams the items of a JSON array body: each item is preceded by the
newline indent (with a comma separator after the first), and a failing
item keeps every chunk emitted before the failure. -/
def jsonSeqItems : List PyValue → Nat → Bool → String × Bool
  | [], _, _ => ("", true)
  | v :: rest, lvl, first =>
      let pre := if first then jsonNl lvl else "," ++ jsonNl lvl
      let r := jsonStream v lvl
      if r.2 then
        let r2 := jsonSeqItems rest lvl false
        (pre ++ r.1 ++ r2.1, r2.2)
      else (pre ++ r.1, false)

/-- Streams the entries of a JSON object body: the quoted key and the
`": "` separator are emitted before the value, so they survive a failure
inside the value. -/
def jsonDictItems : List (String × PyValue) → Nat → Bool → String × Bool
  | [], _, _ => ("", true)
  | (k, v) :: rest, lvl, first =>
      let pre := if first then jsonNl lvl else "," ++ jsonNl lvl
      let r := jsonStream v lvl
      if r.2 then
        let r2 := jsonDictItems rest lvl false
        (pre ++ jsonQuote k ++ ": " ++ r.1 ++ r2.1, r2.2)
      else (pre ++ jsonQuote k ++ ": " ++ r.1, false)
end

/-- Models `write_data_to_json` (src/program.py lines 108-122): the output
file is opened for writing (truncating it) at line 110, and only then does
`json.dump` serialize the value directly into it at line 111, so the file
is opened unconditionally and receives every chunk produced before a
serialization failure; the `except TypeError` handler turns the failure
into a `False` return. -/
def write_data_to_json (data : PyValue) : WriteOutcome :=
  let r := jsonStream data 0
  { opened := true, written := r.1, success := r.2 }

/-- Models the XML input branch shared by `ConverterWorker.run`
(src/program.py lines 256-263) and `__main__` (lines 458-464): the parsed
root element is always converted by `convert_xml_to_dict`, and the result
is checked against `None`, the error branch returning no value (`none`
here).  The element itself is never forwarded. -/
def converter_xml_input (root : Element) : Option PyValue :=
  match convert_xml_to_dict root with
  | .null => none
  | d => some d

theorem lookupAssoc_append_left_none {α : Type} (l1 l2 : List (String × α)) (k : String)
    (h : lookupAssoc l1 k = none) : lookupAssoc (l1 ++ l2) k = lookupAssoc l2 k := by
  induction l1 with
  | nil => simp
  | cons p rest ih =>
    obtain ⟨k1, v1⟩ := p
    by_cases hk : k1 = k
    · simp [lookupAssoc, hk] at h
    · simp only [lookupAssoc, if_neg hk] at h
      simp only [List.cons_append, lookupAssoc, if_neg hk]
      exact ih h

theorem lookupAssoc_updateAssoc_self {α : Type} (l : List (String × α)) (k : String) (v : α) :
    lookupAssoc (updateAssoc l k v) k = some v := by
  induction l with
  | nil => simp [updateAssoc, lookupAssoc]
  | cons p rest ih =>
    obtain ⟨k1, v1⟩ := p
    by_cases hk : k1 = k
    · simp [updateAssoc, hk, lookupAssoc]
    · simp [updateAssoc, hk, lookupAssoc, ih]

theorem lookupAssoc_updateAssoc_ne {α : Type} (l : List (String × α)) (k k' : String)
    (v : α) (h : k' ≠ k) :
    lookupAssoc (updateAssoc l k v) k' = lookupAssoc l k' := by
  induction l with
  | nil => simp [updateAssoc, lookupAssoc, Ne.symm h]
  | cons p rest ih =>
    obtain ⟨k1, v1⟩ := p
    by_cases hk : k1 = k
    · subst hk
      simp [updateAssoc, lookupAssoc, Ne.symm h]
    · by_cases hk' : k1 = k'
      · subst hk'
        simp [updateAssoc, hk, lookupAssoc]
      · simp [updateAssoc, hk, lookupAssoc, hk', ih]

theorem updateAssoc_ne_nil {α : Type} (l : List (String × α)) (k : String) (v : α) :
    updateAssoc l k v ≠ [] := by
  cases l with
  | nil => simp [updateAssoc]
  | cons p rest =>
    obtain ⟨k1, v1⟩ := p
    by_cases hk : k1 = k <;> simp [updateAssoc, hk]

theorem addChild_ne_nil (acc : List (String × PyValue)) (tag : String) (cd : PyValue) :
    addChild acc tag cd ≠ [] := by
  unfold addChild
  split
  · simp
  · exact updateAssoc_ne_nil _ _ _
  · exact updateAssoc_ne_nil _ _ _

theorem convertChildren_ne_nil (cs : List Element) (acc : List (String × PyValue))
    (h : acc ≠ []) : convertChildren cs acc ≠ [] := by
  induction cs generalizing acc with
  | nil => simpa [convertChildren] using h
  | cons c rest ih =>
    simp only [convertChildren]
    exact ih _ (addChild_ne_nil _ _ _)

theorem convertChildren_cons_ne_nil (c : Element) (cs : List Element)
    (acc : List (String × PyValue)) : convertChildren (c :: cs) acc ≠ [] := by
  simp only [convertChildren]
  exact convertChildren_ne_nil _ _ (addChild_ne_nil _ _ _)

theorem attribValues_ne_nil (attrib : List (String × String)) (h : attrib ≠ []) :
    attribValues attrib ≠ [] := by
  cases attrib with
  | nil => exact absurd rfl h
  | cons p rest => obtain ⟨k, v⟩ := p; simp [attribValues]

theorem lookupAssoc_attribValues_none (attrib : List (String × String)) (k : String)
    (h : lookupAssoc attrib k = none) : lookupAssoc (attribValues attrib) k = none := by
  induction attrib with
  | nil => simp [attribValues, lookupAssoc]
  | cons p rest ih =>
    obtain ⟨k1, v1⟩ := p
    by_cases hk : k1 = k
    · simp [lookupAssoc, hk] at h
    · simp only [lookupAssoc, if_neg hk] at h
      simp only [attribValues, lookupAssoc, if_neg hk]
      exact ih h

theorem convert_xml_to_dict_shape (e : Element) :
    (∃ kvs, convert_xml_to_dict e = .dict kvs) ∨
    (∃ s, convert_xml_to_dict e = .str s ∧ s ≠ "") := by
  obtain ⟨tg, attrib, children, text⟩ := e
  cases text with
  | none =>
    refine Or.inl ⟨convertChildren children (attribValues attrib), ?_⟩
    simp [convert_xml_to_dict]
  | some t =>
    by_cases h1 : pyStrip t = ""
    · refine Or.inl ⟨convertChildren children (attribValues attrib), ?_⟩
      simp [convert_xml_to_dict, h1]
    · by_cases h2 : ((convertChildren children (attribValues attrib)).isEmpty
          && attrib.isEmpty) = true
      · refine Or.inr ⟨pyStrip t, ?_, h1⟩
        simp [convert_xml_to_dict, h1, h2]
      · refine Or.inl ⟨updateAssoc (convertChildren children (attribValues attrib)) "#text"
          (.str (pyStrip t)), ?_⟩
        simp [convert_xml_to_dict, h1, h2]

theorem convert_xml_to_dict_ne_null (e : Element) : convert_xml_to_dict e ≠ PyValue.null := by
  rcases convert_xml_to_dict_shape e with ⟨kvs, h⟩ | ⟨s, h, _⟩ <;> simp [h]

theorem convert_xml_to_dict_ne_list (e : Element) (xs : List PyValue) :
    convert_xml_to_dict e ≠ PyValue.list xs := by
  rcases convert_xml_to_dict_shape e with ⟨kvs, h⟩ | ⟨s, h, _⟩ <;> simp [h]

theorem convert_dict_result_lookup (tg : String) (attrib : List (String × String))
    (children : List Element) (text : Option String) (k : String) (hk : k ≠ "#text")
    (hne : convertChildren children (attribValues attrib) ≠ []) :
    ∃ m, convert_xml_to_dict ⟨tg, attrib, children, text⟩ = .dict m ∧
      lookupAssoc m k = lookupAssoc (convertChildren children (attribValues attrib)) k := by
  cases text with
  | none =>
    refine ⟨convertChildren children (attribValues attrib), ?_, rfl⟩
    simp [convert_xml_to_dict]
  | some t =>
    by_cases h1 : pyStrip t = ""
    · refine ⟨convertChildren children (attribValues attrib), ?_, rfl⟩
      simp [convert_xml_to_dict, h1]
    · by_cases h2 : ((convertChildren children (attribValues attrib)).isEmpty
          && attrib.isEmpty) = true
      · rw [Bool.and_eq_true] at h2
        exact absurd (List.isEmpty_iff.mp h2.1) hne
      · refine ⟨updateAssoc (convertChildren children (attribValues attrib)) "#text"
          (.str (pyStrip t)), ?_, lookupAssoc_updateAssoc_ne _ _ _ _ hk⟩
        simp [convert_xml_to_dict, h1, h2]

/-- C1: in `convert_xml_to_dict`, a child whose tag is not yet a key of the
accumulator is inserted directly under the tag; a second or later child
with the same tag promotes the existing entry to a list and appends (an
entry that is already a list gets the new value appended); hence an
element with exactly two children tagged `item` (and no `item` attribute)
decodes to a dict whose `item` key holds the two decoded children as a
two-element list, and an element with exactly one `item` child decodes to
a dict whose `item` key holds that child's decoded value unwrapped. -/
theorem c1_repeated_tag_merge :
    (∀ acc tag cd, lookupAssoc acc tag = none →
        addChild acc tag cd = acc ++ [(tag, cd)]) ∧
    (∀ acc tag cd v, lookupAssoc acc tag = some v → (∀ xs, v ≠ PyValue.list xs) →
        addChild acc tag cd = updateAssoc acc tag (PyValue.list [v, cd])) ∧
    (∀ acc tag cd xs, lookupAssoc acc tag = some (PyValue.list xs) →
        addChild acc tag cd = updateAssoc acc tag (PyValue.list (xs ++ [cd]))) ∧
    (∀ tg attrib c1 c2 text, c1.tag = "item" → c2.tag = "item" →
        lookupAssoc attrib "item" = none →
        ∃ m, convert_xml_to_dict ⟨tg, attrib, [c1, c2], text⟩ = .dict m ∧
          lookupAssoc m "item" =
            some (.list [convert_xml_to_dict c1, convert_xml_to_dict c2])) ∧
    (∀ tg attrib c1 text, c1.tag = "item" →
        lookupAssoc attrib "item" = none →
        ∃ m, convert_xml_to_dict ⟨tg, attrib, [c1], text⟩ = .dict m ∧
          lookupAssoc m "item" = some (convert_xml_to_dict c1)) := by
  refine ⟨?_, ?_, ?_, ?_, ?_⟩
  · intro acc tag cd h
    simp [addChild, h]
  · intro acc tag cd v h hv
    cases v
    case list xs => exact absurd rfl (hv xs)
    all_goals simp [addChild, h]
  · intro acc tag cd xs h
    simp [addChild, h]
  · intro tg attrib c1 c2 text h1 h2 hat
    have hacc0 := lookupAssoc_attribValues_none attrib "item" hat
    have e1 : addChild (attribValues attrib) "item" (convert_xml_to_dict c1)
        = attribValues attrib ++ [("item", convert_xml_to_dict c1)] := by
      simp [addChild, hacc0]
    have hlook : lookupAssoc (attribValues attrib ++ [("item", convert_xml_to_dict c1)])
        "item" = some (convert_xml_to_dict c1) := by
      rw [lookupAssoc_append_left_none _ _ _ hacc0]
      simp [lookupAssoc]
    have e2 : addChild (attribValues attrib ++ [("item", convert_xml_to_dict c1)]) "item"
          (convert_xml_to_dict c2)
        = updateAssoc (attribValues attrib ++ [("item", convert_xml_to_dict c1)]) "item"
            (PyValue.list [convert_xml_to_dict c1, convert_xml_to_dict c2]) := by
      rcases convert_xml_to_dict_shape c1 with ⟨kvs, hc⟩ | ⟨s, hc, _⟩ <;>
        (rw [hc] at hlook; simp [addChild, hlook, hc])
    have hchain : convertChildren [c1, c2] (attribValues attrib)
        = updateAssoc (attribValues attrib ++ [("item", convert_xml_to_dict c1)]) "item"
            (PyValue.list [convert_xml_to_dict c1, convert_xml_to_dict c2]) := by
      simp only [convertChildren, h1, h2, e1, e2]
    obtain ⟨m, hm, hl⟩ := convert_dict_result_lookup tg attrib [c1, c2] text "item"
      (by decide) (by rw [hchain]; exact updateAssoc_ne_nil _ _ _)
    refine ⟨m, hm, ?_⟩
    rw [hl, hchain, lookupAssoc_updateAssoc_self]
  · intro tg attrib c1 text h1 hat
    have hacc0 := lookupAssoc_attribValues_none attrib "item" hat
    have e1 : addChild (attribValues attrib) "item" (convert_xml_to_dict c1)
        = attribValues attrib ++ [("item", convert_xml_to_dict c1)] := by
      simp [addChild, hacc0]
    have hchain : convertChildren [c1] (attribValues attrib)
        = attribValues attrib ++ [("item", convert_xml_to_dict c1)] := by
      simp only [convertChildren, h1, e1]
    obtain ⟨m, hm, hl⟩ := convert_dict_result_lookup tg attrib [c1] text "item"
      (by decide) (by rw [hchain]; simp)
    refine ⟨m, hm, ?_⟩
    rw [hl, hchain, lookupAssoc_append_left_none _ _ _ hacc0]
    simp [lookupAssoc]

/-- Witness for C1 at concrete inputs: a fresh tag appends, a repeated tag
promotes to a two-element list, a list entry is appended to, and the
concrete one-`item`-child and two-`item`-children elements decode as
claimed. -/
theorem c1_repeated_tag_merge_witness :
    addChild [] "item" (PyValue.str "1") = [("item", PyValue.str "1")] ∧
    addChild [("item", PyValue.str "1")] "item" (PyValue.str "2")
      = updateAssoc [("item", PyValue.str "1")] "item"
          (PyValue.list [PyValue.str "1", PyValue.str "2"]) ∧
    addChild [("item", PyValue.list [PyValue.str "1", PyValue.str "2"])] "item"
        (PyValue.str "3")
      = updateAssoc [("item", PyValue.list [PyValue.str "1", PyValue.str "2"])] "item"
          (PyValue.list [PyValue.str "1", PyValue.str "2", PyValue.str "3"]) ∧
    (∃ m, convert_xml_to_dict
        ⟨"root", [], [⟨"item", [], [], some "1"⟩, ⟨"item", [], [], some "2"⟩], none⟩
        = .dict m ∧
      lookupAssoc m "item" = some (.list [convert_xml_to_dict ⟨"item", [], [], some "1"⟩,
        convert_xml_to_dict ⟨"item", [], [], some "2"⟩])) ∧
    (∃ m, convert_xml_to_dict ⟨"root", [], [⟨"item", [], [], some "1"⟩], none⟩
        = .dict m ∧
      lookupAssoc m "item" = some (convert_xml_to_dict ⟨"item", [], [], some "1"⟩)) := by
  refine ⟨?_, ?_, ?_, ?_, ?_⟩
  · exact c1_repeated_tag_merge.1 [] "item" (PyValue.str "1") rfl
  · exact c1_repeated_tag_merge.2.1 [("item", PyValue.str "1")] "item" (PyValue.str "2")
      (PyValue.str "1") (by simp [lookupAssoc]) (fun xs h => PyValue.noConfusion h)
  · exact c1_repeated_tag_merge.2.2.1 [("item", PyValue.list [PyValue.str "1", PyValue.str "2"])]
      "item" (PyValue.str "3") [PyValue.str "1", PyValue.str "2"] (by simp [lookupAssoc])
  · exact c1_repeated_tag_merge.2.2.2.1 "root" [] ⟨"item", [], [], some "1"⟩
      ⟨"item", [], [], some "2"⟩ none rfl rfl rfl
  · exact c1_repeated_tag_merge.2.2.2.2 "root" [] ⟨"item", [], [], some "1"⟩ none rfl rfl

/-- C2: an element with no attributes, no children and text that is
non-empty after stripping decodes to the bare stripped string, not a
mapping; otherwise (some attribute or child present) non-empty stripped
text is inserted in the result dict under the reserved key `#text`. -/
theorem c2_text_leaf :
    (∀ tg t, pyStrip t ≠ "" →
        convert_xml_to_dict ⟨tg, [], [], some t⟩ = .str (pyStrip t)) ∧
    (∀ tg attrib children t, pyStrip t ≠ "" → (attrib ≠ [] ∨ children ≠ []) →
        ∃ m, convert_xml_to_dict ⟨tg, attrib, children, some t⟩ = .dict m ∧
          lookupAssoc m "#text" = some (.str (pyStrip t))) := by
  constructor
  · intro tg t h
    simp [convert_xml_to_dict, convertChildren, attribValues, h]
  · intro tg attrib children t ht hne
    have hacc : convertChildren children (attribValues attrib) ≠ [] := by
      rcases hne with h | h
      · exact convertChildren_ne_nil _ _ (attribValues_ne_nil _ h)
      · cases children with
        | nil => exact absurd rfl h
        | cons c cs => exact convertChildren_cons_ne_nil _ _ _
    have hisEmpty : (convertChildren children (attribValues attrib)).isEmpty = false := by
      cases hl : convertChildren children (attribValues attrib) with
      | nil => exact absurd hl hacc
      | cons p l => simp
    refine ⟨updateAssoc (convertChildren children (attribValues attrib)) "#text"
      (.str (pyStrip t)), ?_, lookupAssoc_updateAssoc_self _ _ _⟩
    simp [convert_xml_to_dict, ht, hisEmpty]

/-- Witness for C2: the element `<value> 42 </value>` decodes to the bare
string `"42"`, and the same text on an element carrying an attribute lands
under `#text` instead. -/
theorem c2_text_leaf_witness :
    convert_xml_to_dict ⟨"value", [], [], some " 42 "⟩ = .str "42" ∧
    (∃ m, convert_xml_to_dict ⟨"value", [("id", "7")], [], some " 42 "⟩ = .dict m ∧
        lookupAssoc m "#text" = some (.str "42")) := by
  have e : pyStrip " 42 " = "42" := by decide
  constructor
  · have h := c2_text_leaf.1 "value" " 42 " (by simp [e])
    rw [e] at h
    exact h
  · obtain ⟨m, hm, hl⟩ := c2_text_leaf.2 "value" [("id", "7")] [] " 42 "
      (by simp [e]) (Or.inl (by simp))
    rw [e] at hl
    exact ⟨m, hm, hl⟩

/-- C8: an element with no attributes, no children and no (or only
whitespace) text decodes to the empty dict, not to `None`. -/
theorem c8_empty_element :
    ∀ tg (text : Option String), (∀ t, text = some t → pyStrip t = "") →
      convert_xml_to_dict ⟨tg, [], [], text⟩ = .dict [] ∧
      convert_xml_to_dict ⟨tg, [], [], text⟩ ≠ .null := by
  intro tg text h
  have he : convert_xml_to_dict ⟨tg, [], [], text⟩ = .dict [] := by
    cases text with
    | none => simp [convert_xml_to_dict, convertChildren, attribValues]
    | some t => simp [convert_xml_to_dict, convertChildren, attribValues, h t rfl]
  refine ⟨he, ?_⟩
  rw [he]
  simp

/-- Witness for C8 at a whitespace-only-text element. -/
theorem c8_empty_element_witness :
    convert_xml_to_dict ⟨"a", [], [], some "  "⟩ = .dict [] ∧
    convert_xml_to_dict ⟨"a", [], [], some "  "⟩ ≠ .null := by
  refine c8_empty_element "a" (some "  ") ?_
  intro t ht
  injection ht with h
  rw [← h]
  decide

/-- C10: `convert_xml_to_dict` always returns either a dict or a non-empty
string; it never returns `None` and never a list at top level, so the
pipeline's `is None` check after the XML decode never takes its error
branch. -/
theorem c10_decoder_result_shape :
    (∀ e, (∃ kvs, convert_xml_to_dict e = .dict kvs) ∨
        (∃ s, convert_xml_to_dict e = .str s ∧ s ≠ "")) ∧
    (∀ e, convert_xml_to_dict e ≠ .null) ∧
    (∀ e xs, convert_xml_to_dict e ≠ .list xs) ∧
    (∀ root, converter_xml_input root = some (convert_xml_to_dict root)) := by
  refine ⟨convert_xml_to_dict_shape, convert_xml_to_dict_ne_null,
    convert_xml_to_dict_ne_list, ?_⟩
  intro root
  rcases convert_xml_to_dict_shape root with ⟨kvs, h⟩ | ⟨s, h, _⟩ <;>
    simp [converter_xml_input, h]

theorem encodeItems_tags (items : List PyValue) (tag : String) :
    (encodeItems tag items).map Element.tag
      = List.replicate items.length (itemTagOf tag) := by
  induction items with
  | nil => simp [encodeItems]
  | cons item rest ih =>
    cases item <;> simp [encodeItems, ih, List.replicate_succ]

/-- C3: every item element produced when encoding a list under a parent tag
carries the singularized item tag: the parent tag with its trailing `s`
removed when the tag ends in `s` and is longer than one character, and the
literal `item` otherwise; so a list under `users` yields `user` children
and a list under `data` yields `item` children. -/
theorem c3_sequence_item_tag :
    (∀ tag items, (convert_dict_to_xml_element tag (.list items)).children.map Element.tag
        = List.replicate items.length
            (if tag.data.getLast? = some 's' ∧ tag.length > 1
             then String.mk tag.data.dropLast else "item")) ∧
    itemTagOf "users" = "user" ∧
    itemTagOf "data" = "item" ∧
    (convert_dict_to_xml_element "users" (.list [.int 1, .int 2])).children.map Element.tag
      = ["user", "user"] ∧
    (convert_dict_to_xml_element "data" (.list [.int 1])).children.map Element.tag
      = ["item"] := by
  have husers : itemTagOf "users" = "user" := by decide
  have hdata : itemTagOf "data" = "item" := by decide
  refine ⟨?_, husers, hdata, ?_, ?_⟩
  · intro tag items
    simp [convert_dict_to_xml_element, encodeItems_tags, itemTagOf]
  · simp [convert_dict_to_xml_element, encodeItems, husers]
  · simp [convert_dict_to_xml_element, encodeItems, hdata]

/-- C4 counterexample: the claim says a boolean encodes with text `true` or
`false`, but the code stores Python `str(True)`, which is `True`: encoding
the boolean under tag `flag` yields the leaf text `True`, and
`True ≠ true` as strings. -/
theorem c4_boolean_text_counterexample :
    convert_dict_to_xml_element "flag" (.bool true) = ⟨"flag", [], [], some "True"⟩ ∧
    ("True" : String) ≠ "true" := by
  constructor
  · simp [convert_dict_to_xml_element, pyStr, pyRepr]
  · decide

/-- Scalar values in the sense of the spec: Null, Bool, Number or String. -/
def isScalarValue : PyValue → Bool
  | .null => true
  | .bool _ => true
  | .int _ => true
  | .str _ => true
  | _ => false

/-- C4 amended: every scalar encodes as a leaf element with the given tag
whose text is Python's `str()` of the value: `None` for null, `True` and
`False` (capitalized) for booleans, the decimal form for integers, and the
verbatim text for strings. -/
theorem c4_scalar_leaf :
    (∀ tag v, isScalarValue v = true →
        convert_dict_to_xml_element tag v = ⟨tag, [], [], some (pyStr v)⟩) ∧
    pyStr .null = "None" ∧
    pyStr (.bool true) = "True" ∧
    pyStr (.bool false) = "False" ∧
    (∀ n : Int, pyStr (.int n) = toString n) ∧
    (∀ s, pyStr (.str s) = s) := by
  refine ⟨?_, by simp [pyStr, pyRepr], by simp [pyStr, pyRepr], by simp [pyStr, pyRepr],
    fun n => by simp [pyStr, pyRepr], fun s => by simp [pyStr]⟩
  intro tag v hv
  cases v <;> simp_all [convert_dict_to_xml_element, isScalarValue]

/-- Witness for C4 amended: encoding `False` under tag `flag` yields the
leaf `<flag>False</flag>`. -/
theorem c4_scalar_leaf_witness :
    convert_dict_to_xml_element "flag" (.bool false) = ⟨"flag", [], [], some "False"⟩ := by
  have h := c4_scalar_leaf.1 "flag" (.bool false) rfl
  simpa [pyStr, pyRepr] using h

/-- C5 counterexample: the conversion pipeline's XML input branch feeds
`convert_xml_to_dict root`, never the element itself, to the writer, so
converting the element `<root a="1"/>` XML-to-XML does not reproduce it:
the attribute becomes a child element and the written root differs from
the input root. -/
theorem c5_xml_passthrough_counterexample :
    write_data_to_xml_root (convert_xml_to_dict ⟨"root", [("a", "1")], [], none⟩)
      = some ⟨"root", [], [⟨"a", [], [], some "1"⟩], none⟩ ∧
    write_data_to_xml_root (convert_xml_to_dict ⟨"root", [("a", "1")], [], none⟩)
      ≠ some ⟨"root", [("a", "1")], [], none⟩ := by
  have hd : convert_xml_to_dict ⟨"root", [("a", "1")], [], none⟩
      = .dict [("a", PyValue.str "1")] := by
    simp [convert_xml_to_dict, convertChildren, attribValues]
  have hr : write_data_to_xml_root (convert_xml_to_dict ⟨"root", [("a", "1")], [], none⟩)
      = some ⟨"root", [], [⟨"a", [], [], some "1"⟩], none⟩ := by
    rw [hd]
    simp [write_data_to_xml_root, convert_dict_to_xml_element, encodeEntries, pyStr]
  refine ⟨hr, ?_⟩
  rw [hr]
  simp

/-- C5 amended: `write_data_to_xml` does serialize an `ET.Element` argument
unchanged, but the conversion pipeline never hands it one: the XML input
branch always decodes the parsed root with `convert_xml_to_dict` first, so
XML-to-XML conversion is a decode-then-re-encode, not a pass-through
identity on the element tree. -/
theorem c5_xml_passthrough :
    (∀ e, write_data_to_xml_root (.xmlElement e) = some e) ∧
    (∀ root e, converter_xml_input root ≠ some (.xmlElement e)) := by
  constructor
  · intro e
    simp [write_data_to_xml_root]
  · intro root e
    rcases convert_xml_to_dict_shape root with ⟨kvs, h⟩ | ⟨s, h, _⟩ <;>
      simp [converter_xml_input, h]

theorem append_left_bracket_ne_empty (s : String) : ("[" ++ s) ≠ "" := by
  intro h
  have hl := congrArg String.length h
  rw [String.length_append] at hl
  have h1 : ("[" : String).length = 1 := rfl
  have h0 : ("" : String).length = 0 := rfl
  rw [h1, h0] at hl
  omega

theorem write_json_list_written (x : PyValue) (xs : List PyValue) :
    ∃ rest, (write_data_to_json (.list (x :: xs))).written = "[" ++ rest := by
  rcases hr : jsonSeqItems (x :: xs) 1 true with ⟨body, ok⟩
  cases ok
  · exact ⟨body, by simp [write_data_to_json, jsonStream, hr]⟩
  · exact ⟨body ++ jsonNl 0 ++ "]",
      by simp [write_data_to_json, jsonStream, hr, String.append_assoc]⟩

/-- C6 counterexample: `write_data_to_json` streams `json.dump` output into
the already-open file, so on the list `[1, <date>]` (an integer followed by
a value that is not JSON-serializable) the encode fails, yet the output
file has been opened (truncated) and has received the non-empty partial
document emitted before the failure. -/
theorem c6_no_partial_write_counterexample :
    (write_data_to_json (.list [.int 1, .foreignObj])).success = false ∧
    (write_data_to_json (.list [.int 1, .foreignObj])).written ≠ "" ∧
    (write_data_to_json (.list [.int 1, .foreignObj])).opened = true := by
  refine ⟨?_, ?_, rfl⟩
  · simp [write_data_to_json, jsonStream, jsonSeqItems]
  · obtain ⟨rest, hw⟩ := write_json_list_written (.int 1) [.foreignObj]
    rw [hw]
    exact append_left_bracket_ne_empty rest

/-- C6 amended: the encode-fully-before-writing guarantee holds for the XML
writer, which renders the whole document in memory and opens the output
file only afterwards, writing nothing when its encode fails; the JSON
writer instead opens (and truncates) the output file before serializing
into it, so a failing JSON encode can leave a non-empty partial document
in the output file (the YAML writer has the same open-before-encode
structure). -/
theorem c6_encode_before_write :
    (∀ d, (write_data_to_xml d).success = false →
        (write_data_to_xml d).opened = false ∧ (write_data_to_xml d).written = "") ∧
    (∀ d, (write_data_to_json d).opened = true) ∧
    (∃ d, (write_data_to_json d).success = false ∧
        (write_data_to_json d).written ≠ "") := by
  refine ⟨?_, fun d => rfl, ?_⟩
  · intro d h
    cases hr : write_data_to_xml_root d with
    | some r =>
      by_cases hw : xmlWellFormed r = true
      · simp [write_data_to_xml, hr, hw] at h
      · simp [write_data_to_xml, hr, hw]
    | none => simp [write_data_to_xml, hr]
  · refine ⟨.list [.int 1, .foreignObj], ?_, ?_⟩
    · simp [write_data_to_json, jsonStream, jsonSeqItems]
    · obtain ⟨rest, hw⟩ := write_json_list_written (.int 1) [.foreignObj]
      rw [hw]
      exact append_left_bracket_ne_empty rest

/-- Witness for C6 amended: on the scalar `"x"` the XML writer fails
before opening the output file and writes nothing. -/
theorem c6_encode_before_write_witness :
    (write_data_to_xml (.str "x")).opened = false ∧
    (write_data_to_xml (.str "x")).written = "" := by
  exact c6_encode_before_write.1 (.str "x") (by simp [write_data_to_xml, write_data_to_xml_root])

/-- C7 counterexample: the claim says every scalar is encodable to XML, but
passing the scalar string `"x"` to `write_data_to_xml` leaves the local
`root` unassigned and the call returns a failure outcome. -/
theorem c7_xml_writer_scalar_counterexample :
    (write_data_to_xml (.str "x")).success = false ∧
    isScalarValue (.str "x") = true := by
  constructor
  · simp [write_data_to_xml, write_data_to_xml_root]
  · rfl

/-- Shapes for which the dispatch of `write_data_to_xml` (lines 155-164)
assigns the local variable `root`: an `ET.Element`, a dict, or a list. -/
def isXmlEncodableShape : PyValue → Bool
  | .xmlElement _ => true
  | .dict _ => true
  | .list _ => true
  | _ => false

/-- C7 amended: `write_data_to_xml` can succeed only when the value is an
`ET.Element`, a dict, or a list; every other value, scalars included,
leaves `root` unassigned, raising `UnboundLocalError`, which the generic
`except Exception` handler turns into a failure before the output file is
opened (the `raise TypeError` at line 166 is unreachable, so no
`ShapeError`-labelled failure occurs).  For the three encodable shapes
the call succeeds exactly when the built element tree serializes to XML
that `minidom.parseString` accepts; otherwise — for example for the dict
binding `a` to the string containing the NUL character — the reparse at
line 169 raises `ExpatError` and the call fails, likewise before the file
is opened. -/
theorem c7_xml_writer_success_shape :
    (∀ d, (write_data_to_xml d).success = true → isXmlEncodableShape d = true) ∧
    (∀ d, isXmlEncodableShape d = false →
        (write_data_to_xml d).success = false ∧ (write_data_to_xml d).opened = false ∧
        (write_data_to_xml d).written = "") ∧
    (∀ d root, write_data_to_xml_root d = some root →
        ((write_data_to_xml d).success = true ↔ xmlWellFormed root = true)) ∧
    (write_data_to_xml (.dict [("a", .str "\x00")])).success = false := by
  refine ⟨?_, ?_, ?_, ?_⟩
  · intro d h
    cases d <;> first
      | rfl
      | simp [write_data_to_xml, write_data_to_xml_root] at h
  · intro d h
    cases d <;> simp_all [isXmlEncodableShape, write_data_to_xml, write_data_to_xml_root]
  · intro d root hr
    by_cases hw : xmlWellFormed root = true
    · simp [write_data_to_xml, hr, hw]
    · simp [write_data_to_xml, hr, hw]
  · have hroot : write_data_to_xml_root (.dict [("a", .str "\x00")])
        = some ⟨"root", [], [⟨"a", [], [], some "\x00"⟩], none⟩ := by
      simp [write_data_to_xml_root, convert_dict_to_xml_element, encodeEntries, pyStr]
    have hc : ("\x00".data.all validXmlChar) = false := by decide
    have hwf : xmlWellFormed ⟨"root", [], [⟨"a", [], [], some "\x00"⟩], none⟩ = false := by
      simp [xmlWellFormed, xmlWellFormedChildren, hc]
    simp [write_data_to_xml, hroot, hwf]

/-- Witness for C7 amended at concrete inputs: a well-formed Element
argument succeeds (exercising the success-only-for-encodable-shapes part),
the scalar `"x"` fails without opening or writing, and for the dict
`a ↦ "1"` success is equivalent to well-formedness of the built tree. -/
theorem c7_xml_writer_success_shape_witness :
    isXmlEncodableShape (PyValue.xmlElement ⟨"r", [], [], none⟩) = true ∧
    ((write_data_to_xml (.str "x")).success = false ∧
        (write_data_to_xml (.str "x")).opened = false ∧
        (write_data_to_xml (.str "x")).written = "") ∧
    ((write_data_to_xml (.dict [("a", .str "1")])).success = true ↔
        xmlWellFormed ⟨"root", [], [⟨"a", [], [], some "1"⟩], none⟩ = true) := by
  refine ⟨?_, ?_, ?_⟩
  · refine c7_xml_writer_success_shape.1 (PyValue.xmlElement ⟨"r", [], [], none⟩) ?_
    have hn : validXmlName "r" = true := by decide
    have hwf : xmlWellFormed ⟨"r", [], [], none⟩ = true := by
      simp [xmlWellFormed, xmlWellFormedChildren, distinctKeys, hn]
    simp [write_data_to_xml, write_data_to_xml_root, hwf]
  · exact c7_xml_writer_success_shape.2.1 (.str "x") rfl
  · refine c7_xml_writer_success_shape.2.2.1 (.dict [("a", .str "1")]) _ ?_
    simp [write_data_to_xml_root, convert_dict_to_xml_element, encodeEntries, pyStr]
